import Mathlib

/-!
Verification of the metadata-store and sector-retrieval core of the `us`
renter utilities (package `renterutil` plus the `proto` downloader).

The Go code is shallowly embedded: Go maps become association lists with
update-or-append semantics (first binding wins on lookup, matching a Go
map, which never holds duplicate keys), Go byte strings become `List Nat`,
`uint64`/`uint32`/`uint8` values become `Nat` with explicit `% 2 ^ w`
where Go truncates or wraps, Go `int` reference counts become `Int`, and
Go panics (out-of-range slice indexing, explicit `panic`) become `none`
in an `Option` result.
-/

/-! ### Association-list maps (Go `map` semantics) -/

/-- Lookup in an association list: the first binding for the key, if any.
Models reading a Go map (which holds at most one binding per key). -/
def mapGet {α β : Type} [DecidableEq α] : List (α × β) → α → Option β
  | [], _ => none
  | p :: rest, k => if p.1 = k then some p.2 else mapGet rest k

/-- Insert or overwrite: replaces the first binding for the key, or appends
a new binding. Models a Go map assignment `m[k] = v`. -/
def mapInsert {α β : Type} [DecidableEq α] : List (α × β) → α → β → List (α × β)
  | [], k, v => [(k, v)]
  | p :: rest, k, v => if p.1 = k then (k, v) :: rest else p :: mapInsert rest k v

/-- Remove the first binding for the key, if any. Models Go `delete(m, k)`. -/
def mapRemove {α β : Type} [DecidableEq α] : List (α × β) → α → List (α × β)
  | [], _ => []
  | p :: rest, k => if p.1 = k then rest else p :: mapRemove rest k

/-- Read of the `refs` map: a missing key reads as 0, as in Go
`db.refs[k]` for `map[uint64]int`. -/
def refsGet : List (Nat × Int) → Nat → Int
  | [], _ => 0
  | p :: rest, k => if p.1 = k then p.2 else refsGet rest k

/-- In-place adjustment of the `refs` map by `d`: models Go
`db.refs[k]++` / `db.refs[k]--`, which insert the key (from a default of
0) when absent. -/
def refsAdjust : List (Nat × Int) → Nat → Int → List (Nat × Int)
  | [], k, d => [(k, d)]
  | p :: rest, k, d => if p.1 = k then (p.1, p.2 + d) :: rest else p :: refsAdjust rest k d

theorem refsGet_refsAdjust (refs : List (Nat × Int)) (k : Nat) (d : Int) (t : Nat) :
    refsGet (refsAdjust refs k d) t = refsGet refs t + (if k = t then d else 0) := by
  induction refs with
  | nil =>
    by_cases h : k = t <;> simp [refsAdjust, refsGet, h]
  | cons p rest ih =>
    by_cases hp : p.1 = k
    · subst hp
      by_cases ht : p.1 = t
      · subst ht
        simp [refsAdjust, refsGet]
      · simp [refsAdjust, refsGet, ht]
    · by_cases ht : p.1 = t
      · subst ht
        have hk : ¬ k = p.1 := fun h => hp h.symm
        simp [refsAdjust, refsGet, hp, hk]
      · simp [refsAdjust, refsGet, hp, ht, ih]

theorem mapGet_mapInsert_self {α β : Type} [DecidableEq α]
    (m : List (α × β)) (k : α) (v : β) : mapGet (mapInsert m k v) k = some v := by
  induction m with
  | nil => simp [mapInsert, mapGet]
  | cons p rest ih =>
    by_cases hp : p.1 = k <;> simp [mapInsert, mapGet, hp, ih]

/-! ### Data model (`renterutil` record types) -/

/-- A DBShard is a piece of data stored on a Sia host: host public key,
sector Merkle root, offset, and nonce, all opaque here. -/
structure DBShard where
  hostKey : Nat
  sectorRoot : Nat
  offset : Nat
  nonce : Nat
deriving DecidableEq, Repr

/-- A DBChunk is a set of erasure-encoded shards: id, shard-id slots
(0 = unset), reconstruction threshold (a Go `uint8`), and pre-encoding
length. -/
structure DBChunk where
  id : Nat
  shards : List Nat
  minShards : Nat
  len : Nat
deriving DecidableEq, Repr

/-- A DBBlob is the concatenation of one or more chunks, named by an
opaque byte-string key, with a per-blob seed. -/
structure DBBlob where
  key : List Nat
  chunks : List Nat
  seed : Nat
deriving DecidableEq, Repr

/-! ### EphemeralMetaDB (in-memory backend) -/

/-- In-memory MetaDB state: the `shards` and `chunks` slices, the `blobs`
map keyed by the blob key, the incrementally maintained `refs` map, and
the `meta` map. -/
structure EphemeralMetaDB where
  shards : List DBShard
  chunks : List DBChunk
  blobs : List (List Nat × DBBlob)
  refs : List (Nat × Int)
  meta : List (List Nat × List Nat)
deriving DecidableEq, Repr

/-- A freshly initialized EphemeralMetaDB (`NewEphemeralMetaDB`). -/
def NewEphemeralMetaDB : EphemeralMetaDB :=
  { shards := [], chunks := [], blobs := [], refs := [], meta := [] }

/-- AddShard appends the record to the `shards` slice and returns
`len(db.shards)` as the id (ids start at 1). Never fails. -/
def EphemeralMetaDB.addShard (db : EphemeralMetaDB) (s : DBShard) :
    EphemeralMetaDB × Nat :=
  ({ db with shards := db.shards ++ [s] }, db.shards.length + 1)

/-- Shard returns `db.shards[id-1]`. The Go code performs no bounds
check: `id = 0` underflows to a huge index and any out-of-range index
panics; both are modelled as `none`. -/
def EphemeralMetaDB.shard (db : EphemeralMetaDB) (id : Nat) : Option DBShard :=
  if id = 0 then none else db.shards[id - 1]?

/-- AddChunk builds a chunk with id `len(db.chunks)+1`, `n` zero shard
slots, `MinShards = uint8(m)` and the given length, appends it, and
returns it. There is no validation of `m` or `n`. -/
def EphemeralMetaDB.addChunk (db : EphemeralMetaDB) (m n length : Nat) :
    EphemeralMetaDB × DBChunk :=
  let c : DBChunk :=
    { id := db.chunks.length + 1
      shards := List.replicate n 0
      minShards := m % 256
      len := length }
  ({ db with chunks := db.chunks ++ [c] }, c)

/-- Chunk panics (modelled as `none`) on id 0 (`GetChunk: unset id`) and
on an out-of-range index; otherwise returns `db.chunks[id-1]`. -/
def EphemeralMetaDB.chunk (db : EphemeralMetaDB) (id : Nat) : Option DBChunk :=
  if id = 0 then none else db.chunks[id - 1]?

/-- SetChunkShard decrements the refcount of the old shard in slot `i` of
chunk `id`, writes `s` into the slot, and increments the refcount of `s`.
Out-of-range chunk ids or slots panic in Go (modelled as `none`). -/
def EphemeralMetaDB.setChunkShard (db : EphemeralMetaDB) (id i s : Nat) :
    Option EphemeralMetaDB :=
  if id = 0 then none
  else
    match db.chunks[id - 1]? with
    | none => none
    | some c =>
      match c.shards[i]? with
      | none => none
      | some old =>
        some { db with
          chunks := db.chunks.set (id - 1) { c with shards := c.shards.set i s }
          refs := refsAdjust (refsAdjust db.refs old (-1)) s 1 }

/-- AddBlob stores the record under its key, unconditionally overwriting
any existing blob with the same key. Never fails. -/
def EphemeralMetaDB.addBlob (db : EphemeralMetaDB) (b : DBBlob) : EphemeralMetaDB :=
  { db with blobs := mapInsert db.blobs b.key b }

/-- Blob looks up the key, failing (ErrKeyNotFound, modelled as `none`)
when absent. -/
def EphemeralMetaDB.blob (db : EphemeralMetaDB) (key : List Nat) : Option DBBlob :=
  mapGet db.blobs key

/-- DeleteBlob on a missing key returns success without any change. On a
present key it decrements, for every chunk id in the chunk list of the
blob and every shard id in the slots of that chunk, the refcount of that shard id,
then removes the key. Go panics on a dangling chunk id (modelled as
`none`). -/
def EphemeralMetaDB.deleteBlob (db : EphemeralMetaDB) (key : List Nat) :
    Option EphemeralMetaDB :=
  match mapGet db.blobs key with
  | none => some db
  | some b =>
    let step : Option (List (Nat × Int)) → Nat → Option (List (Nat × Int)) :=
      fun acc cid =>
        match acc with
        | none => none
        | some refs =>
          if cid = 0 then none
          else
            match db.chunks[cid - 1]? with
            | none => none
            | some c => some (c.shards.foldl (fun r sid => refsAdjust r sid (-1)) refs)
    match b.chunks.foldl step (some db.refs) with
    | none => none
    | some refs2 => some { db with refs := refs2, blobs := mapRemove db.blobs key }

/-- One iteration of the UnreferencedSectors loop body: for a refs-map
entry with count 0, look up `db.shards[sid-1]` (which panics for sid 0
or an out-of-range sid — modelled as `none`) and emit its (host key,
sector root) pair; skip every other entry. -/
def unrefStep (db : EphemeralMetaDB) (acc : Option (List (Nat × Nat)))
    (p : Nat × Int) : Option (List (Nat × Nat)) :=
  match acc with
  | none => none
  | some out =>
    if p.2 = 0 then
      match db.shard p.1 with
      | none => none
      | some s => some (out ++ [(s.hostKey, s.sectorRoot)])
    else some out

/-- UnreferencedSectors iterates the `refs` map, collecting the (host
key, sector root) pairs of the shards whose entry is 0. -/
def EphemeralMetaDB.unreferencedSectors (db : EphemeralMetaDB) :
    Option (List (Nat × Nat)) :=
  db.refs.foldl (unrefStep db) (some [])

/-! ### BoltMetaDB (on-disk backend)

The Bolt backend is embedded as its four buckets (key-value maps) plus
the two sequence counters used for id allocation. Bucket keys for chunks
and shards are the 8-byte little-endian encodings of their `uint64` ids,
a bijection, so they are modelled directly by the id. Every mutating
operation runs inside one transaction; since each embedded operation is a
pure function from state to state, transactionality is implicit. -/

/-- On-disk MetaDB state: blobs (key to chunk list and seed), chunks and
shards (sequence id to record), metadata, and the two bucket sequence
counters. There is no reference-count state of any kind. -/
structure BoltMetaDB where
  blobs : List (List Nat × (List Nat × Nat))
  chunks : List (Nat × DBChunk)
  shards : List (Nat × DBShard)
  meta : List (List Nat × List Nat)
  chunkSeq : Nat
  shardSeq : Nat
deriving DecidableEq, Repr

/-- A freshly initialized BoltMetaDB: the four buckets exist and are
empty, both sequence counters at 0 (`NextSequence` returns 1 first). -/
def NewBoltMetaDB : BoltMetaDB :=
  { blobs := [], chunks := [], shards := [], meta := [], chunkSeq := 0, shardSeq := 0 }

/-- AddShard takes the next shard sequence number as the id and stores
the encoded record under it. -/
def BoltMetaDB.addShard (db : BoltMetaDB) (s : DBShard) : BoltMetaDB × Nat :=
  let id := db.shardSeq + 1
  ({ db with shardSeq := id, shards := mapInsert db.shards id s }, id)

/-- Shard reads the record stored under the id; a missing id makes
`encoding.Unmarshal` of the nil bucket value fail (modelled as `none`). -/
def BoltMetaDB.shard (db : BoltMetaDB) (id : Nat) : Option DBShard :=
  mapGet db.shards id

/-- AddChunk takes the next chunk sequence number as the id and stores a
chunk with `n` zero shard slots, `MinShards = uint8(m)`, and the given
length. There is no validation of `m` or `n`. -/
def BoltMetaDB.addChunk (db : BoltMetaDB) (m n length : Nat) : BoltMetaDB × DBChunk :=
  let id := db.chunkSeq + 1
  let c : DBChunk :=
    { id := id, shards := List.replicate n 0, minShards := m % 256, len := length }
  ({ db with chunkSeq := id, chunks := mapInsert db.chunks id c }, c)

/-- Chunk reads the record stored under the id; missing ids fail as in
`BoltMetaDB.shard`. -/
def BoltMetaDB.chunk (db : BoltMetaDB) (id : Nat) : Option DBChunk :=
  mapGet db.chunks id

/-- SetChunkShard loads the chunk, overwrites slot `i` with `s`, and
stores it back. A missing chunk id is an unmarshalling error and an
out-of-range slot panics; both are modelled as `none`. No reference
count exists or is adjusted in this backend. -/
def BoltMetaDB.setChunkShard (db : BoltMetaDB) (id i s : Nat) : Option BoltMetaDB :=
  match mapGet db.chunks id with
  | none => none
  | some c =>
    if i < c.shards.length then
      some { db with chunks := mapInsert db.chunks id { c with shards := c.shards.set i s } }
    else none

/-- AddBlob stores the marshalled chunk list and seed under the blob key,
unconditionally overwriting any existing record. Never fails. -/
def BoltMetaDB.addBlob (db : BoltMetaDB) (b : DBBlob) : BoltMetaDB :=
  { db with blobs := mapInsert db.blobs b.key (b.chunks, b.seed) }

/-- Blob reads the record under the key, failing with ErrKeyNotFound
(modelled as `none`) when absent; the stored marshalling of a record is
never empty. -/
def BoltMetaDB.blob (db : BoltMetaDB) (key : List Nat) : Option DBBlob :=
  (mapGet db.blobs key).map (fun p => { key := key, chunks := p.1, seed := p.2 })

/-- DeleteBlob deletes the key from the blobs bucket and nothing else
(the refcount adjustment is left as a TODO in the source); the Bolt
`Delete` succeeds whether or not the key is present. -/
def BoltMetaDB.deleteBlob (db : BoltMetaDB) (key : List Nat) : BoltMetaDB :=
  { db with blobs := mapRemove db.blobs key }

/-- UnreferencedSectors is unimplemented in the source (`return nil, nil`):
it reports no sectors and no error. -/
def BoltMetaDB.unreferencedSectors (_db : BoltMetaDB) : List (Nat × Nat) :=
  []

/-! ### Operation sequences and reference-count recomputation -/

/-- One metadata-store mutation, for stating properties over operation
sequences. -/
inductive MetaOp where
  | addShard (s : DBShard)
  | addChunk (m n length : Nat)
  | setChunkShard (id i s : Nat)
  | addBlob (b : DBBlob)
  | deleteBlob (key : List Nat)
deriving DecidableEq, Repr

/-- Apply one operation to the in-memory store (`none` = the Go call
panicked). -/
def EphemeralMetaDB.step (db : EphemeralMetaDB) : MetaOp → Option EphemeralMetaDB
  | .addShard s => some (db.addShard s).1
  | .addChunk m n length => some (db.addChunk m n length).1
  | .setChunkShard id i s => db.setChunkShard id i s
  | .addBlob b => some (db.addBlob b)
  | .deleteBlob key => db.deleteBlob key

/-- Run a sequence of operations on the in-memory store. -/
def runOps (db : EphemeralMetaDB) : List MetaOp → Option EphemeralMetaDB
  | [] => some db
  | op :: rest =>
    match db.step op with
    | none => none
    | some db2 => runOps db2 rest

/-- The number of (chunk, slot) pairs across the chunks of all live blobs
that currently point at shard id `s` — the recomputed-from-scratch
reference count named by the specification. -/
def liveRefCount (db : EphemeralMetaDB) (s : Nat) : Nat :=
  (db.blobs.map (fun p =>
    (p.2.chunks.map (fun cid =>
      match db.chunk cid with
      | some c => c.shards.count s
      | none => 0)).sum)).sum

/-- The number of (chunk, slot) pairs across all chunks in the store —
chunks of live blobs or not — that currently point at shard id `s`. -/
def allChunksRefCount (db : EphemeralMetaDB) (s : Nat) : Nat :=
  (db.chunks.map (fun c => c.shards.count s)).sum

/-! ### Sector-retrieval protocol (`proto.Downloader`)

The network interactions of the downloader are embedded as pure functions
over an environment describing how the host answers each step of one
exchange. Deadline manipulation (step 1 of the protocol) involves real
time and is not modelled; it affects no claim below. -/

/-- Modelled from the spec: the fixed sector size of the network (the Sia
sector size, 4 MiB), a constant defined outside the given sources. -/
def SectorSize : Nat := 2 ^ 22

/-- The host settings relevant to a download: the per-byte download
bandwidth price (prices are arbitrary-precision currency, hence `Nat`). -/
structure HostSettings where
  downloadBandwidthPrice : Nat
deriving DecidableEq, Repr

/-- A contract revision, reduced to the two payout fields a download
moves value between. `renterPayout` is the remaining renter-side value
(`RenterFunds`), `hostPayout` the value transferred to the host. -/
structure Revision where
  renterPayout : Nat
  hostPayout : Nat
deriving DecidableEq, Repr

/-- Modelled from the spec: `newDownloadRevision` (defined outside the
given sources) constructs the proposed revision by transferring `price`
from the renter payout to the host payout, leaving all other terms
unchanged. -/
def newDownloadRevision (rev : Revision) (price : Nat) : Revision :=
  { renterPayout := rev.renterPayout - price, hostPayout := rev.hostPayout + price }

/-- Modelled from the spec: the answer of the host to the proposed revision.
Either it countersigns (`ok`), or it countersigns and announces a
graceful stop of the negotiation loop (`stopResponse`, Go
`modules.ErrStopResponse`), or negotiation fails (`fail`, with the flag
telling whether the failure is a transport-level disconnect). -/
inductive NegotiationResult where
  | ok (signed : Revision)
  | stopResponse (signed : Revision)
  | fail (transport : Bool)
deriving DecidableEq, Repr

/-- Failures of one download exchange. Each transport-capable step
carries a flag telling whether the failure was a transport-level
disconnect. -/
inductive DownloadErr where
  | invalidRange
  | startRevisionFailed (transport : Bool)
  | insufficientFunds
  | sendActionFailed (transport : Bool)
  | negotiationFailed (transport : Bool)
  | syncFailed
  | readFailed (transport : Bool)
  | incompleteSector
deriving DecidableEq, Repr

/-- Modelled from the spec: `IsHostDisconnect` (defined outside the given
sources) reports whether an error stems from a transport-level disconnect
rather than a protocol-level rejection or a local precondition failure. -/
def isHostDisconnect : DownloadErr → Bool
  | .startRevisionFailed t => t
  | .sendActionFailed t => t
  | .negotiationFailed t => t
  | .readFailed t => t
  | _ => false

/-- Outcome of reading the sector payload from the wire: either the
bytes delivered, or a failure (with its transport-level flag). -/
inductive ReadResult where
  | ok (payload : List Nat)
  | fail (transport : Bool)
deriving DecidableEq, Repr

/-- How the host answers the successive steps of one exchange:
`startRevisionErr`/`sendActionErr` are `some t` when that write fails
(`t` = transport-level), the negotiation answer, whether `SyncWithHost`
succeeds, and the payload read. -/
structure ExchangeEnv where
  startRevisionErr : Option Bool
  sendActionErr : Option Bool
  negotiation : NegotiationResult
  syncOk : Bool
  readResult : ReadResult
deriving DecidableEq, Repr

/-- The observable wire requests one exchange makes, in order. -/
inductive WireAction where
  | startRevisionSent
  | downloadActionSent (root offset length : Nat)
  | revisionProposed (rev : Revision)
deriving DecidableEq, Repr

/-- Tail of `partialSector` shared by the `ok` and `stopResponse`
negotiation outcomes: record the countersigned revision with the contract
editor, read the sector payload, and check that exactly `length` bytes
arrived. -/
def partialSectorFinish (signed : Revision) (env : ExchangeEnv) (length : Nat)
    (acts : List WireAction) :
    Except DownloadErr (Revision × List Nat) × List WireAction :=
  if env.syncOk then
    match env.readResult with
    | .fail t => (.error (.readFailed t), acts)
    | .ok payload =>
      if payload.length % 2 ^ 32 = length then (.ok (signed, payload), acts)
      else (.error .incompleteSector, acts)
  else (.error .syncFailed, acts)

/-- One iteration of the download protocol (`Downloader.partialSector`):
range sanity check with `uint32` arithmetic, `startRevision`, funds check
against the price of a full sector, download action, proposed revision
`newDownloadRevision(current, price)`, negotiation (a graceful stop is
treated exactly like success), `SyncWithHost`, payload read, and length
check. `offset` and `length` are `uint32` values; the contract argument
is the current revision held by the contract editor. Returns the result
(the revision recorded plus the payload bytes) and the wire requests
made. -/
def partialSector (host : HostSettings) (contract : Revision) (env : ExchangeEnv)
    (root offset length : Nat) :
    Except DownloadErr (Revision × List Nat) × List WireAction :=
  if (offset + length) % 2 ^ 32 > SectorSize then
    (.error .invalidRange, [])
  else
    match env.startRevisionErr with
    | some t => (.error (.startRevisionFailed t), [.startRevisionSent])
    | none =>
      let sectorPrice := host.downloadBandwidthPrice * SectorSize
      if contract.renterPayout < sectorPrice then
        (.error .insufficientFunds, [.startRevisionSent])
      else
        match env.sendActionErr with
        | some t =>
          (.error (.sendActionFailed t),
            [.startRevisionSent, .downloadActionSent root offset length])
        | none =>
          let rev := newDownloadRevision contract sectorPrice
          let acts := [WireAction.startRevisionSent,
            .downloadActionSent root offset length, .revisionProposed rev]
          match env.negotiation with
          | .fail t => (.error (.negotiationFailed t), acts)
          | .ok signed => partialSectorFinish signed env length acts
          | .stopResponse signed => partialSectorFinish signed env length acts

/-- The exported `Downloader.PartialSector`: run one exchange; if it
fails with a transport-level disconnect, close the stale connection,
reopen a fresh handshake (`reconnect = none` means `initiateRPC`
succeeded, `some e` that it failed with `e`), and run the exchange once
more; any other outcome is returned as is. The second component counts
how many exchanges were attempted. -/
def PartialSector (host : HostSettings) (contract : Revision)
    (env1 env2 : ExchangeEnv) (reconnect : Option DownloadErr)
    (root offset length : Nat) :
    Except DownloadErr (Revision × List Nat) × Nat :=
  match (partialSector host contract env1 root offset length).1 with
  | .ok v => (.ok v, 1)
  | .error e =>
    if isHostDisconnect e then
      match reconnect with
      | some e2 => (.error e2, 1)
      | none => ((partialSector host contract env2 root offset length).1, 2)
    else (.error e, 1)

instance instDecidableEqExcept {ε α : Type} [DecidableEq ε] [DecidableEq α] :
    DecidableEq (Except ε α)
  | .ok a, .ok b =>
    if h : a = b then .isTrue (by rw [h]) else .isFalse (by simp [h])
  | .ok _, .error _ => .isFalse (by simp)
  | .error _, .ok _ => .isFalse (by simp)
  | .error a, .error b =>
    if h : a = b then .isTrue (by rw [h]) else .isFalse (by simp [h])

/-! ### Claim C1 -/

/-- C1: the claim says a successful `PartialSector` exchange pays the
host exactly `price(length)` more than the prior revision and that the
funds check covers `length` bytes at the per-byte price. The code instead
prices a full sector: with a per-byte price of 1 and `length = 1`, the
proposed revision transfers `SectorSize = 4194304`, not `1`, and a
contract whose remaining funds (1) cover `length` bytes is rejected with
the insufficient-funds error before any data is requested. -/
theorem C1_partialSector_charges_full_sector_price :
    (partialSector ⟨1⟩ ⟨2 * SectorSize, 0⟩
        ⟨none, none, .ok ⟨0, 0⟩, true, .ok [0]⟩ 0 0 1).2
      = [.startRevisionSent, .downloadActionSent 0 0 1,
         .revisionProposed ⟨SectorSize, SectorSize⟩]
  ∧ SectorSize ≠ 1 * 1
  ∧ (partialSector ⟨1⟩ ⟨1, 0⟩
        ⟨none, none, .ok ⟨0, 0⟩, true, .ok [0]⟩ 0 0 1).1
      = .error .insufficientFunds
  ∧ 1 * 1 ≤ 1 := by
  decide

/-! ### Claim C2 -/

/-- C2 counterexample: on an in-memory store holding one (blob-less)
chunk, run the sequence `addShard` then `setChunkShard(1,0,1)`. The
incrementally maintained count of shard 1 is 1, but no chunk slot of a
live blob points at shard 1 (there are no blobs), so the count
recomputed per the claim is 0: the two disagree (and shard 1 has been
added, so the claim covers it). -/
theorem C2_counterexample :
    (runOps (NewEphemeralMetaDB.addChunk 1 1 0).1
        [MetaOp.addShard ⟨0, 0, 0, 0⟩, MetaOp.setChunkShard 1 0 1]).map
      (fun db => (refsGet db.refs 1, liveRefCount db 1)) = some (1, 0) := by
  decide

/-! ### Claim C4 -/

/-- C4 counterexample: the claim says `addBlob` fails with DuplicateKey
on an existing key and leaves the record unchanged. On both backends the
second `addBlob` with the same key succeeds (the operation has no failure
path at all) and replaces the stored record. -/
theorem C4_counterexample :
    ((NewEphemeralMetaDB.addBlob ⟨[107], [1], 0⟩).addBlob ⟨[107], [2], 0⟩).blob [107]
        = some ⟨[107], [2], 0⟩
  ∧ ((NewBoltMetaDB.addBlob ⟨[107], [1], 0⟩).addBlob ⟨[107], [2], 0⟩).blob [107]
        = some ⟨[107], [2], 0⟩
  ∧ (⟨[107], [2], 0⟩ : DBBlob) ≠ ⟨[107], [1], 0⟩ := by
  decide

/-- C4 (amended): `addBlob` never fails; on both backends it
unconditionally installs the record, overwriting any existing blob with
the same key, and an immediate lookup returns the new record. -/
theorem C4_amended_addBlob_overwrites (db : EphemeralMetaDB) (bdb : BoltMetaDB)
    (b : DBBlob) :
    (db.addBlob b).blob b.key = some b
  ∧ (bdb.addBlob b).blob b.key = some b := by
  constructor
  · simp [EphemeralMetaDB.addBlob, EphemeralMetaDB.blob, mapGet_mapInsert_self]
  · simp [BoltMetaDB.addBlob, BoltMetaDB.blob, mapGet_mapInsert_self]

/-! ### Claim C5 -/

/-- C5 counterexample: add one shard to a fresh in-memory store. Shard 1
is referenced by no live blob (its recomputed count is 0), yet
`unreferencedSectors` returns the empty grouping: the scan only visits
entries of the maintained `refs` map, and a shard never touched by
`setChunkShard` has no entry. -/
theorem C5_counterexample :
    (NewEphemeralMetaDB.addShard ⟨5, 7, 0, 0⟩).1.unreferencedSectors = some []
  ∧ liveRefCount (NewEphemeralMetaDB.addShard ⟨5, 7, 0, 0⟩).1 1 = 0
  ∧ (NewEphemeralMetaDB.addShard ⟨5, 7, 0, 0⟩).1.shard 1 = some ⟨5, 7, 0, 0⟩ := by
  decide

/-! ### Claim C9 -/

/-- C9 counterexample: the claim says `addChunk(m, n, length)` fails with
InvalidParameters when `m = 0` or `m > n`. On both backends the call has
no failure path: `addChunk(0, 1, 5)` and `addChunk(3, 2, 5)` succeed and
install the chunk (retrievable afterwards). -/
theorem C9_counterexample :
    (NewEphemeralMetaDB.addChunk 0 1 5).2 = ⟨1, [0], 0, 5⟩
  ∧ (NewEphemeralMetaDB.addChunk 0 1 5).1.chunk 1 = some ⟨1, [0], 0, 5⟩
  ∧ (NewEphemeralMetaDB.addChunk 3 2 5).2 = ⟨1, [0, 0], 3, 5⟩
  ∧ (NewBoltMetaDB.addChunk 0 1 5).2 = ⟨1, [0], 0, 5⟩ := by
  decide

/-! ### Claim C3 -/

/-- C3: evaluation of `deleteBlob` on both backends over one lifecycle
(add shard 1, add chunk 1, point slot 0 at shard 1, add blob `[107]`
over chunk 1). In-memory: deleting the live key removes the mapping and
decrements the count of shard 1 exactly once (1 to 0), and deleting a missing
key is a successful no-op leaving every count unchanged — as claimed.
On-disk: deleting the live key removes only the blobs-bucket entry; the
rest of the state is bit-identical, no reference count exists or is
decremented anywhere (the source marks this `TODO: refcounts`), and the
unreferenced-sector scan still reports nothing even though shard 1 is no
longer referenced by any blob. -/
theorem C3_deleteBlob_refcount_evaluation :
    runOps NewEphemeralMetaDB
        [MetaOp.addShard ⟨3, 4, 0, 0⟩, MetaOp.addChunk 1 1 9,
         MetaOp.setChunkShard 1 0 1, MetaOp.addBlob ⟨[107], [1], 0⟩]
      = some ⟨[⟨3, 4, 0, 0⟩], [⟨1, [1], 1, 9⟩], [([107], ⟨[107], [1], 0⟩)],
          [(0, -1), (1, 1)], []⟩
  ∧ EphemeralMetaDB.deleteBlob
        ⟨[⟨3, 4, 0, 0⟩], [⟨1, [1], 1, 9⟩], [([107], ⟨[107], [1], 0⟩)],
          [(0, -1), (1, 1)], []⟩ [107]
      = some ⟨[⟨3, 4, 0, 0⟩], [⟨1, [1], 1, 9⟩], [], [(0, -1), (1, 0)], []⟩
  ∧ EphemeralMetaDB.deleteBlob
        ⟨[⟨3, 4, 0, 0⟩], [⟨1, [1], 1, 9⟩], [([107], ⟨[107], [1], 0⟩)],
          [(0, -1), (1, 1)], []⟩ [9]
      = some ⟨[⟨3, 4, 0, 0⟩], [⟨1, [1], 1, 9⟩], [([107], ⟨[107], [1], 0⟩)],
          [(0, -1), (1, 1)], []⟩
  ∧ (((NewBoltMetaDB.addShard ⟨3, 4, 0, 0⟩).1.addChunk 1 1 9).1.setChunkShard 1 0 1).map
        (fun db => db.addBlob ⟨[107], [1], 0⟩)
      = some ⟨[([107], ([1], 0))], [(1, ⟨1, [1], 1, 9⟩)], [(1, ⟨3, 4, 0, 0⟩)], [], 1, 1⟩
  ∧ BoltMetaDB.deleteBlob
        ⟨[([107], ([1], 0))], [(1, ⟨1, [1], 1, 9⟩)], [(1, ⟨3, 4, 0, 0⟩)], [], 1, 1⟩ [107]
      = ⟨[], [(1, ⟨1, [1], 1, 9⟩)], [(1, ⟨3, 4, 0, 0⟩)], [], 1, 1⟩
  ∧ BoltMetaDB.unreferencedSectors
        ⟨[], [(1, ⟨1, [1], 1, 9⟩)], [(1, ⟨3, 4, 0, 0⟩)], [], 1, 1⟩
      = [] := by
  decide

/-! ### Claim C6 -/

/-- C6: when the host answers the proposed revision with the graceful
stop signal (`modules.ErrStopResponse`), `partialSector` treats it as a
benign end-of-session marker, not a failure: the exchange proceeds
exactly as on a plain countersignature — same contract sync, same
payload read, same result — rather than aborting. -/
theorem C6_stopResponse_is_benign (host : HostSettings) (contract : Revision)
    (env : ExchangeEnv) (root offset length : Nat) (signed : Revision)
    (h : env.negotiation = .stopResponse signed) :
    partialSector host contract env root offset length
      = partialSector host contract { env with negotiation := .ok signed }
          root offset length := by
  cases env with
  | mk sre sae neg sync rr =>
    simp only at h
    subst h
    simp only [partialSector, partialSectorFinish]

/-- C6 witness: a concrete graceful-stop exchange equals its
plain-countersignature counterpart. -/
theorem C6_stopResponse_is_benign_witness :
    partialSector ⟨1⟩ ⟨2 * SectorSize, 0⟩
        ⟨none, none, .stopResponse ⟨9, 9⟩, true, .ok [0]⟩ 0 0 1
      = partialSector ⟨1⟩ ⟨2 * SectorSize, 0⟩
        ⟨none, none, .ok ⟨9, 9⟩, true, .ok [0]⟩ 0 0 1 :=
  C6_stopResponse_is_benign ⟨1⟩ ⟨2 * SectorSize, 0⟩
    ⟨none, none, .stopResponse ⟨9, 9⟩, true, .ok [0]⟩ 0 0 1 ⟨9, 9⟩ rfl

/-! ### Claim C7 -/

/-- C7 counterexample: the claim says every call whose mathematical
`offset + length` exceeds the sector size fails with InvalidRange. With
`offset = 2^32 - 1` and `length = 1` the Go `uint32` sum wraps to 0, the
check passes, data is requested from the host, and the call succeeds —
although the mathematical sum `2^32` exceeds the sector size. -/
theorem C7_counterexample :
    (partialSector ⟨1⟩ ⟨2 * SectorSize, 0⟩
        ⟨none, none, .ok ⟨0, 0⟩, true, .ok [0]⟩ 0 (2 ^ 32 - 1) 1).1
      = .ok (⟨0, 0⟩, [0])
  ∧ WireAction.downloadActionSent 0 (2 ^ 32 - 1) 1
      ∈ (partialSector ⟨1⟩ ⟨2 * SectorSize, 0⟩
          ⟨none, none, .ok ⟨0, 0⟩, true, .ok [0]⟩ 0 (2 ^ 32 - 1) 1).2
  ∧ 2 ^ 32 - 1 + 1 > SectorSize := by
  decide

theorem partialSectorFinish_not_invalidRange (signed : Revision) (env : ExchangeEnv)
    (length : Nat) (acts : List WireAction) :
    (partialSectorFinish signed env length acts).1 ≠ .error .invalidRange := by
  unfold partialSectorFinish
  split
  · split
    · simp
    · split <;> simp
  · simp

/-- C7 (amended): the precondition check compares the 32-bit wrapping sum
`(offset + length) mod 2^32` with the sector size: when the wrapped sum
exceeds the sector size the call fails with InvalidRange having requested
nothing from the host, and otherwise the call never fails with
InvalidRange. When the mathematical sum stays below `2^32` — in
particular for every call with mathematical `offset + length` at most the
sector size — the wrapped comparison coincides with the mathematical one;
pairs whose sum reaches `2^32` wrap around and can pass the check. -/
theorem C7_amended_range_check_wraps (host : HostSettings) (contract : Revision)
    (env : ExchangeEnv) (root offset length : Nat) :
    ((offset + length) % 2 ^ 32 > SectorSize →
      partialSector host contract env root offset length = (.error .invalidRange, []))
  ∧ (offset + length < 2 ^ 32 →
      ((offset + length) % 2 ^ 32 > SectorSize ↔ offset + length > SectorSize))
  ∧ ((offset + length) % 2 ^ 32 ≤ SectorSize →
      (partialSector host contract env root offset length).1 ≠ .error .invalidRange) := by
  refine ⟨fun h => ?_, fun h => by rw [Nat.mod_eq_of_lt h], fun h => ?_⟩
  · unfold partialSector
    rw [if_pos h]
  · have h2 : ¬ ((offset + length) % 2 ^ 32 > SectorSize) := by omega
    cases env with
    | mk sre sae neg sync rr =>
      unfold partialSector
      rw [if_neg h2]
      cases sre with
      | some t => simp
      | none =>
        by_cases hf : contract.renterPayout < host.downloadBandwidthPrice * SectorSize
        · rw [if_pos hf]; simp
        · rw [if_neg hf]
          cases sae with
          | some t => simp
          | none =>
            cases neg with
            | fail t => simp
            | ok s => exact partialSectorFinish_not_invalidRange _ _ _ _
            | stopResponse s => exact partialSectorFinish_not_invalidRange _ _ _ _

/-- C7 witness: a call with `offset = 0` and `length = SectorSize + 1`
(no wraparound) fails with InvalidRange before any request. -/
theorem C7_amended_range_check_wraps_witness :
    partialSector ⟨1⟩ ⟨0, 0⟩ ⟨none, none, .ok ⟨0, 0⟩, true, .ok []⟩
        0 0 (SectorSize + 1)
      = (.error .invalidRange, []) :=
  (C7_amended_range_check_wraps ⟨1⟩ ⟨0, 0⟩ ⟨none, none, .ok ⟨0, 0⟩, true, .ok []⟩
    0 0 (SectorSize + 1)).1 (by decide)

/-! ### Claim C8 -/

/-- C8: `PartialSector` attempts the exchange at most twice. A successful
first exchange is returned with no retry; a failure that is not a
transport-level disconnect is surfaced immediately with no retry; a
transport-level disconnect triggers exactly one reconnect: if the fresh
handshake succeeds, the exchange runs exactly once more and its result —
success or failure — is returned with no further retry, and if the fresh
handshake fails, its connection error is surfaced. -/
theorem C8_reconnect_retries_exactly_once (host : HostSettings) (contract : Revision)
    (env1 env2 : ExchangeEnv) (reconnect : Option DownloadErr)
    (root offset length : Nat) :
    (PartialSector host contract env1 env2 reconnect root offset length).2 ≤ 2
  ∧ (∀ v, (partialSector host contract env1 root offset length).1 = .ok v →
      PartialSector host contract env1 env2 reconnect root offset length = (.ok v, 1))
  ∧ (∀ e, (partialSector host contract env1 root offset length).1 = .error e →
      isHostDisconnect e = false →
      PartialSector host contract env1 env2 reconnect root offset length = (.error e, 1))
  ∧ (∀ e, (partialSector host contract env1 root offset length).1 = .error e →
      isHostDisconnect e = true → reconnect = none →
      PartialSector host contract env1 env2 reconnect root offset length
        = ((partialSector host contract env2 root offset length).1, 2))
  ∧ (∀ e e2, (partialSector host contract env1 root offset length).1 = .error e →
      isHostDisconnect e = true → reconnect = some e2 →
      PartialSector host contract env1 env2 reconnect root offset length
        = (.error e2, 1)) := by
  refine ⟨?_, fun v hv => ?_, fun e he hd => ?_, fun e he hd hr => ?_,
    fun e e2 he hd hr => ?_⟩
  · unfold PartialSector
    cases h1 : (partialSector host contract env1 root offset length).1 with
    | ok v => simp
    | error e =>
      by_cases hd : isHostDisconnect e
      · cases reconnect <;> simp [hd]
      · simp [hd]
  · unfold PartialSector
    rw [hv]
  · unfold PartialSector
    rw [he]
    simp [hd]
  · unfold PartialSector
    rw [he, hr]
    simp [hd]
  · unfold PartialSector
    rw [he, hr]
    simp [hd]

/-- C8 witness: a concrete transport disconnect on the first exchange
(with a successful reconnect) yields the result of the second exchange and
exactly two attempts. -/
theorem C8_reconnect_retries_exactly_once_witness :
    PartialSector ⟨1⟩ ⟨2 * SectorSize, 0⟩
        ⟨some true, none, .ok ⟨0, 0⟩, true, .ok [0]⟩
        ⟨none, none, .ok ⟨0, 0⟩, true, .ok [0]⟩ none 0 0 1
      = ((partialSector ⟨1⟩ ⟨2 * SectorSize, 0⟩
          ⟨none, none, .ok ⟨0, 0⟩, true, .ok [0]⟩ 0 0 1).1, 2) :=
  (C8_reconnect_retries_exactly_once ⟨1⟩ ⟨2 * SectorSize, 0⟩
      ⟨some true, none, .ok ⟨0, 0⟩, true, .ok [0]⟩
      ⟨none, none, .ok ⟨0, 0⟩, true, .ok [0]⟩ none 0 0 1).2.2.2.1
    (.startRevisionFailed true) (by decide) (by decide) rfl

/-! ### Claim C9 (amended) -/

/-- C9 (amended): `addChunk(m, n, length)` performs no parameter
validation on either backend: for all nonnegative `m` and `n` — `m = 0`
and `m > n` included — it succeeds, allocating a fresh chunk with exactly
`n` zero (empty) shard slots, threshold `uint8(m) = m mod 256`, and the
given length, and the chunk is retrievable under its new id afterwards. -/
theorem C9_amended_addChunk_skips_validation (db : EphemeralMetaDB) (bdb : BoltMetaDB)
    (m n length : Nat) :
    (db.addChunk m n length).2
        = ⟨db.chunks.length + 1, List.replicate n 0, m % 256, length⟩
  ∧ (db.addChunk m n length).1.chunk (db.chunks.length + 1)
        = some ⟨db.chunks.length + 1, List.replicate n 0, m % 256, length⟩
  ∧ (bdb.addChunk m n length).2
        = ⟨bdb.chunkSeq + 1, List.replicate n 0, m % 256, length⟩
  ∧ (bdb.addChunk m n length).1.chunk (bdb.chunkSeq + 1)
        = some ⟨bdb.chunkSeq + 1, List.replicate n 0, m % 256, length⟩ := by
  refine ⟨rfl, ?_, rfl, ?_⟩
  · simp [EphemeralMetaDB.addChunk, EphemeralMetaDB.chunk, List.getElem?_concat_length]
  · simp [BoltMetaDB.addChunk, BoltMetaDB.chunk, mapGet_mapInsert_self]

/-! ### Claim C10 -/

/-- C10: on the in-memory backend, `Shard(id)` with `id = 0` (whose
`id - 1` underflows) or with `id` greater than the number of shards added
so far panics with an out-of-range slice index — modelled as `none` —
instead of returning an error, and exactly the ids `AddShard` has handed
out (`AddShard` returns the new length of the shard slice, and looking
that id up yields the record just added) produce a normal result. -/
theorem C10_shard_panics_on_out_of_range (db : EphemeralMetaDB) (id : Nat)
    (s : DBShard) :
    (db.shard id = none ↔ id = 0 ∨ db.shards.length < id)
  ∧ (db.addShard s).2 = db.shards.length + 1
  ∧ (db.addShard s).1.shard (db.addShard s).2 = some s := by
  refine ⟨?_, rfl, ?_⟩
  · unfold EphemeralMetaDB.shard
    by_cases h0 : id = 0
    · simp [h0]
    · rw [if_neg h0]
      rw [List.getElem?_eq_none_iff]
      omega
  · simp [EphemeralMetaDB.addShard, EphemeralMetaDB.shard,
      List.getElem?_concat_length]

/-! ### Claim C2 (amended): the maintained count tracks all chunks -/

theorem count_set_exchange (l : List Nat) (i a old t : Nat) (h : l[i]? = some old) :
    (l.set i a).count t + (if old = t then 1 else 0)
      = l.count t + (if a = t then 1 else 0) := by
  induction l generalizing i with
  | nil => simp at h
  | cons x xs ih =>
    cases i with
    | zero =>
      have hx : x = old := by simpa using h
      subst hx
      simp only [List.set_cons_zero, List.count_cons]
      by_cases h1 : a = t <;> by_cases h2 : x = t <;> simp [h1, h2]
    | succ j =>
      have := ih j (by simpa using h)
      simp only [List.set_cons_succ, List.count_cons]
      by_cases h2 : x = t <;> simp [h2] <;> omega

theorem sum_map_set_exchange {α : Type} (f : α → Nat) (l : List α) (i : Nat) (x y : α)
    (h : l[i]? = some x) :
    ((l.set i y).map f).sum + f x = (l.map f).sum + f y := by
  induction l generalizing i with
  | nil => simp at h
  | cons a as ih =>
    cases i with
    | zero =>
      obtain rfl : a = x := by simpa using h
      simp only [List.set_cons_zero, List.map_cons, List.sum_cons]
      omega
    | succ j =>
      have := ih j (by simpa using h)
      simp only [List.set_cons_succ, List.map_cons, List.sum_cons]
      omega

/-- The operations named by the claim that mutate the chunk graph without
touching blobs. -/
def chunkBuildOp : MetaOp → Bool
  | .addShard _ => true
  | .addChunk _ _ _ => true
  | .setChunkShard _ _ _ => true
  | .addBlob _ => false
  | .deleteBlob _ => false

/-- Invariant of the in-memory backend: for every real shard id (ids
start at 1) the maintained count equals the number of (chunk, slot)
pairs across all chunks pointing at it. -/
def refsMatchChunks (db : EphemeralMetaDB) : Prop :=
  ∀ s : Nat, 1 ≤ s → refsGet db.refs s = (allChunksRefCount db s : Int)

theorem refsMatchChunks_step (db db2 : EphemeralMetaDB) (op : MetaOp)
    (hop : chunkBuildOp op = true) (h : db.step op = some db2)
    (hinv : refsMatchChunks db) : refsMatchChunks db2 := by
  cases op with
  | addShard s =>
    simp only [EphemeralMetaDB.step] at h
    injection h with h
    subst h
    intro t ht
    simpa [EphemeralMetaDB.addShard, allChunksRefCount] using hinv t ht
  | addChunk m n len =>
    simp only [EphemeralMetaDB.step] at h
    injection h with h
    subst h
    intro t ht
    have hne : ¬ t = 0 := by omega
    have hne2 : ¬ ((0 : Nat) = t) := by omega
    have := hinv t ht
    simp only [EphemeralMetaDB.addChunk, allChunksRefCount] at this ⊢
    simp [List.count_replicate, hne, hne2, this]
  | setChunkShard id i sh =>
    simp only [EphemeralMetaDB.step, EphemeralMetaDB.setChunkShard] at h
    by_cases h0 : id = 0
    · simp [h0] at h
    · rw [if_neg h0] at h
      cases hc : db.chunks[id - 1]? with
      | none =>
        simp only [hc] at h
        exact Option.noConfusion h
      | some c =>
        simp only [hc] at h
        cases hs : c.shards[i]? with
        | none =>
          simp only [hs] at h
          exact Option.noConfusion h
        | some old =>
          simp only [hs] at h
          injection h with h
          subst h
          intro t ht
          have hv := hinv t ht
          have e1 : ((db.chunks.set (id - 1)
                { c with shards := c.shards.set i sh }).map
                  (fun ch => ch.shards.count t)).sum + c.shards.count t
              = (db.chunks.map (fun ch => ch.shards.count t)).sum
                  + (c.shards.set i sh).count t :=
            sum_map_set_exchange _ db.chunks (id - 1) c _ hc
          have e2 := count_set_exchange c.shards i sh old t hs
          simp only [allChunksRefCount] at hv ⊢
          rw [refsGet_refsAdjust, refsGet_refsAdjust]
          by_cases h1 : old = t
          · rw [if_pos h1] at e2 ⊢
            by_cases h2 : sh = t
            · rw [if_pos h2] at e2 ⊢
              omega
            · rw [if_neg h2] at e2 ⊢
              omega
          · rw [if_neg h1] at e2 ⊢
            by_cases h2 : sh = t
            · rw [if_pos h2] at e2 ⊢
              omega
            · rw [if_neg h2] at e2 ⊢
              omega
  | addBlob b => simp [chunkBuildOp] at hop
  | deleteBlob key => simp [chunkBuildOp] at hop

theorem runOps_refsMatchChunks (ops : List MetaOp) :
    ∀ db : EphemeralMetaDB, refsMatchChunks db →
      (∀ op ∈ ops, chunkBuildOp op = true) →
      ∀ db2 : EphemeralMetaDB, runOps db ops = some db2 → refsMatchChunks db2 := by
  induction ops with
  | nil =>
    intro db hdb _ db2 hrun
    simp only [runOps] at hrun
    injection hrun with hrun
    subst hrun
    exact hdb
  | cons op rest ih =>
    intro db hdb hops db2 hrun
    simp only [runOps] at hrun
    cases hstep : db.step op with
    | none => rw [hstep] at hrun; cases hrun
    | some dbm =>
      rw [hstep] at hrun
      exact ih dbm
        (refsMatchChunks_step db dbm op (hops op (by simp)) hstep hdb)
        (fun o ho => hops o (by simp [ho])) db2 hrun

/-- C2 (amended): on the in-memory backend, after any finite sequence of
`addShard`, `addChunk`, and `setChunkShard` operations from a fresh
store, the maintained reference count of every real shard id `s ≥ 1`
equals the number of (chunk, slot) pairs across ALL chunks in the store
pointing at `s` — references from chunks not (or not yet) attached to
any live blob count too — and is in particular never negative. On the
on-disk backend there is no maintained reference count to compare: a
successful `setChunkShard` there changes only the chunks bucket, leaving
every other state component untouched. -/
theorem C2_amended_refcount_tracks_all_chunks (ops : List MetaOp)
    (hops : ∀ op ∈ ops, chunkBuildOp op = true) (db : EphemeralMetaDB)
    (hrun : runOps NewEphemeralMetaDB ops = some db) (s : Nat) (hs : 1 ≤ s)
    (bdb bdb2 : BoltMetaDB) (id i sh : Nat) :
    (refsGet db.refs s = (allChunksRefCount db s : Int) ∧ 0 ≤ refsGet db.refs s)
  ∧ (bdb.setChunkShard id i sh = some bdb2 →
      bdb2.blobs = bdb.blobs ∧ bdb2.shards = bdb.shards ∧ bdb2.meta = bdb.meta
        ∧ bdb2.chunkSeq = bdb.chunkSeq ∧ bdb2.shardSeq = bdb.shardSeq) := by
  constructor
  · have hfresh : refsMatchChunks NewEphemeralMetaDB := by
      intro t ht
      simp [NewEphemeralMetaDB, refsGet, allChunksRefCount]
    have hmatch := runOps_refsMatchChunks ops NewEphemeralMetaDB hfresh hops db hrun
    refine ⟨hmatch s hs, ?_⟩
    rw [hmatch s hs]
    exact Int.natCast_nonneg _
  · intro h
    unfold BoltMetaDB.setChunkShard at h
    cases hc : mapGet bdb.chunks id with
    | none =>
      simp only [hc] at h
      exact Option.noConfusion h
    | some c =>
      simp only [hc] at h
      by_cases hi : i < c.shards.length
      · rw [if_pos hi] at h
        injection h with h
        subst h
        exact ⟨rfl, rfl, rfl, rfl, rfl⟩
      · rw [if_neg hi] at h
        cases h

/-- C2 amended witness: the invariant and the on-disk no-refcount fact at
a concrete run (`addShard`, `addChunk(1,2,9)`, `setChunkShard(1,0,1)`)
and a concrete on-disk `setChunkShard`. -/
theorem C2_amended_refcount_tracks_all_chunks_witness :
    (refsGet (⟨[⟨0, 0, 0, 0⟩], [⟨1, [1, 0], 1, 9⟩], [], [(0, -1), (1, 1)], []⟩ :
        EphemeralMetaDB).refs 1
      = (allChunksRefCount
          ⟨[⟨0, 0, 0, 0⟩], [⟨1, [1, 0], 1, 9⟩], [], [(0, -1), (1, 1)], []⟩ 1 : Int)
    ∧ 0 ≤ refsGet (⟨[⟨0, 0, 0, 0⟩], [⟨1, [1, 0], 1, 9⟩], [], [(0, -1), (1, 1)], []⟩ :
        EphemeralMetaDB).refs 1)
  ∧ (BoltMetaDB.setChunkShard ⟨[], [(1, ⟨1, [0], 1, 9⟩)], [], [], 1, 0⟩ 1 0 2
        = some ⟨[], [(1, ⟨1, [2], 1, 9⟩)], [], [], 1, 0⟩ →
      ([] : List (List Nat × (List Nat × Nat))) = []
        ∧ ([] : List (Nat × DBShard)) = [] ∧ ([] : List (List Nat × List Nat)) = []
        ∧ (1 : Nat) = 1 ∧ (0 : Nat) = 0) :=
  C2_amended_refcount_tracks_all_chunks
    [MetaOp.addShard ⟨0, 0, 0, 0⟩, MetaOp.addChunk 1 2 9, MetaOp.setChunkShard 1 0 1]
    (by decide)
    ⟨[⟨0, 0, 0, 0⟩], [⟨1, [1, 0], 1, 9⟩], [], [(0, -1), (1, 1)], []⟩
    (by decide) 1 (by decide)
    ⟨[], [(1, ⟨1, [0], 1, 9⟩)], [], [], 1, 0⟩
    ⟨[], [(1, ⟨1, [2], 1, 9⟩)], [], [], 1, 0⟩ 1 0 2

/-! ### Claim C5 (amended) -/

theorem unrefStep_zero (db : EphemeralMetaDB) (out : List (Nat × Nat))
    (p : Nat × Int) (s : DBShard) (hp : p.2 = 0) (hs : db.shard p.1 = some s) :
    unrefStep db (some out) p = some (out ++ [(s.hostKey, s.sectorRoot)]) := by
  simp [unrefStep, hp, hs]

theorem unrefStep_nonzero (db : EphemeralMetaDB) (out : List (Nat × Nat))
    (p : Nat × Int) (hp : ¬ p.2 = 0) :
    unrefStep db (some out) p = some out := by
  simp [unrefStep, hp]

theorem unreferencedSectors_foldl (db : EphemeralMetaDB) (l : List (Nat × Int))
    (out : List (Nat × Nat))
    (h : ∀ p ∈ l, p.2 = 0 → (db.shard p.1).isSome) :
    List.foldl (unrefStep db) (some out) l
    = some (out ++ (l.filter (fun p => decide (p.2 = 0))).filterMap
        (fun p => (db.shard p.1).map (fun s => (s.hostKey, s.sectorRoot)))) := by
  induction l generalizing out with
  | nil => simp
  | cons p rest ih =>
    rw [List.foldl_cons]
    by_cases hp : p.2 = 0
    · have hsome := h p (by simp) hp
      cases hshard : db.shard p.1 with
      | none => rw [hshard] at hsome; simp at hsome
      | some s =>
        rw [unrefStep_zero db out p s hp hshard,
          ih _ (fun q hq hq0 => h q (by simp [hq]) hq0)]
        simp [hp, hshard, List.filter_cons]
    · rw [unrefStep_nonzero db out p hp,
        ih _ (fun q hq hq0 => h q (by simp [hq]) hq0)]
      simp [hp, List.filter_cons]

/-- C5 (amended): on the in-memory backend, `unreferencedSectors` lists a
shard (host key, sector root) pair exactly when the maintained `refs`
map holds an entry for its id with value exactly 0 (in map order):
provided every zero-count entry names a real shard (otherwise the Go
code panics), the result is precisely the zero-count entries of `refs`
mapped to the pairs of their shards. A shard never touched by `setChunkShard`
has no entry and is never listed, and entries count references from all
chunks, not only chunks of live blobs. The scan of the on-disk backend is
unimplemented and always reports nothing. -/
theorem C5_amended_scan_follows_refs_entries (db : EphemeralMetaDB)
    (bdb : BoltMetaDB)
    (h : ∀ p ∈ db.refs, p.2 = 0 → (db.shard p.1).isSome) :
    db.unreferencedSectors
      = some ((db.refs.filter (fun p => decide (p.2 = 0))).filterMap
          (fun p => (db.shard p.1).map (fun s => (s.hostKey, s.sectorRoot))))
  ∧ bdb.unreferencedSectors = [] := by
  refine ⟨?_, rfl⟩
  have := unreferencedSectors_foldl db db.refs [] h
  simpa [EphemeralMetaDB.unreferencedSectors] using this

/-- C5 amended witness: with one shard and the single entry `(1, 0)` in
the refs map, the scan lists exactly the pair of that shard; the on-disk scan
reports nothing. -/
theorem C5_amended_scan_follows_refs_entries_witness :
    EphemeralMetaDB.unreferencedSectors ⟨[⟨5, 7, 0, 0⟩], [], [], [(1, 0)], []⟩
      = some [(5, 7)]
  ∧ BoltMetaDB.unreferencedSectors NewBoltMetaDB = [] := by
  have h := C5_amended_scan_follows_refs_entries
    ⟨[⟨5, 7, 0, 0⟩], [], [], [(1, 0)], []⟩ NewBoltMetaDB (by decide)
  exact ⟨h.1.trans (by decide), h.2⟩
